import Mathlib

/-!
# Verification of the gravplass share-lifecycle subsystem

Shallow embedding of `src/server/index.ts` (the authoritative server file).
Modelling conventions:

* The server handles requests sequentially in this model; the deferred
  burn deletion (`setTimeout(... rm ...)` in `handleDownload`) is modelled
  as completing before the next request is processed.
* Filesystem directories are finite lists of entries.  A file's `size`
  mirrors `stat.size` / `File.size`; its `content` mirrors the byte
  payload (on a real filesystem `size = content.length`; the two are kept
  as separate attributes because quota code only reads sizes and download
  code only reads contents).
* Failures of `readdir`/`stat` are modelled by boolean accessibility
  flags (`Bucket.readable`, `Share.statOk`): a `false` flag means the
  corresponding syscall throws, which the embedding propagates exactly as
  the source's `try`/`catch` nesting does.
* JS numbers are embedded as `Nat`/`Int` (byte counts in realistic ranges
  are exact in IEEE doubles); `Math.floor` of an exact quotient is
  `Int.fdiv`.
-/

namespace Gravplass

/-- Configuration fields consumed by the server (`config.toml`, see
`src/server/config.ts`): the password allow-list, per-bucket quota in MB
and the share TTL in days. -/
structure Config where
  passwords : List String
  max_bucket_size_mb : Nat
  share_ttl_days : Nat
deriving Repr, DecidableEq

/-- Embeds `const HOUR_MS = 60 * 60 * 1000`. -/
def HOUR_MS : Nat := 60 * 60 * 1000

/-- A file inside a share directory.  `size` mirrors `stat.size` (and the
uploaded `File.size`), `content` the byte payload, `mime` the
content type reported by `Bun.file(...).type`. -/
structure FsFile where
  name : String
  size : Nat
  content : List Nat
  mime : String
deriving Repr, DecidableEq

/-- One share directory `<data_dir>/uploads/<bucket>/<share_id>/`.
`mtime` mirrors `stat.mtimeMs`; `statOk = false` models a share on which
`stat`/`rm` throws during the cleanup sweep. -/
structure Share where
  id : String
  mtime : Int
  statOk : Bool
  entries : List FsFile
deriving Repr, DecidableEq

/-- One bucket directory `<data_dir>/uploads/<bucket>/`.
`readable = false` models a bucket on which `readdir` throws. -/
structure Bucket where
  id : String
  readable : Bool
  shares : List Share
deriving Repr, DecidableEq

/-- Byte size of one share directory: the inner loop of `getDirSize`
(lines 42-59) summing `stat.size` over the directory's file entries. -/
def shareSize (s : Share) : Nat :=
  (s.entries.map FsFile.size).sum

/-- Embeds `getDirSize(bucketDir)`: the recursive directory walk of lines 42-59
instantiated at the bucket layout — every entry of a bucket directory is
a share subdirectory, every entry of a share directory is a plain file,
so the recursion totals the sizes of all files of all shares. -/
def getDirSize (bucketDir : List Share) : Nat :=
  (bucketDir.map shareSize).sum

/-- Outcome of `handleUpload` (lines 181-236), tagged by HTTP status:
401 Unauthorized, 400 "No files provided", 413 quota (carrying the
`availableMb` number interpolated into the response body), or the 200
JSON `{ url }`. -/
inductive UploadResult
  | unauthorized
  | badRequest
  | quotaExceeded (availableMb : Int)
  | ok (url : String)
deriving Repr, DecidableEq

/-- Embeds `Bun.write(join(shareDir, file.name), file)` at the directory level:
overwrite the entry of that name if present (directory listings hold at
most one entry per name), otherwise append it. -/
def writeFile (dir : List FsFile) (f : FsFile) : List FsFile :=
  match dir with
  | [] => [f]
  | g :: gs => if g.name = f.name then f :: gs else g :: writeFile gs f

/-- The write loop of lines 221-232: persist every uploaded file into the
fresh share directory, then the zero-byte `.burn` marker when requested. -/
def newShareEntries (files : List FsFile) (burn : Bool) : List FsFile :=
  let d := files.foldl writeFile []
  if burn then writeFile d ⟨".burn", 0, [], ""⟩ else d

/-- Embeds `handleUpload` (lines 181-236).  The caller resolves
`bucket = hashPassword(password)`; the bucket's directory contents are
passed explicitly as `bucketDir` (the quota logic is independent of the
directory's name).  `shareId` stands for the fresh `nanoid(8)`, `now`
for the share's resulting mtime.  Returns the response together with the
bucket directory after the request. -/
def handleUpload (cfg : Config) (password : Option String)
    (files : List FsFile) (burn : Bool) (bucketId shareId : String)
    (now : Int) (bucketDir : List Share) : UploadResult × List Share :=
  match password with
  | none => (.unauthorized, bucketDir)
  | some pw =>
    if pw ∈ cfg.passwords then
      if files.isEmpty then (.badRequest, bucketDir)
      else
        let uploadSize := (files.map FsFile.size).sum
        let currentSize := getDirSize bucketDir
        let maxBytes := cfg.max_bucket_size_mb * 1024 * 1024
        if currentSize + uploadSize > maxBytes then
          let availableMb :=
            Int.fdiv ((maxBytes : Int) - (currentSize : Int)) (1024 * 1024)
          (.quotaExceeded availableMb, bucketDir)
        else
          (.ok ("/d/" ++ bucketId ++ "/" ++ shareId),
           bucketDir ++ [⟨shareId, now, true, newShareEntries files burn⟩])
    else (.unauthorized, bucketDir)

/-- Outcome of `handleDownload` (lines 114-179): 400 on malformed paths,
404, the raw single file (name, bytes, content type headers), or the zip
stream whose entries are `(name, bytes)` pairs in directory order
(`Archiver` is modelled by its contract: the archive it streams contains
exactly the entries passed to `archive.file`, in order). -/
inductive DownloadResult
  | invalidPath
  | notFound
  | raw (filename : String) (content : List Nat) (contentType : String)
  | zip (archiveName : String) (entries : List (String × List Nat))
deriving Repr, DecidableEq

/-- Embeds the `readdir(join(data_dir, "uploads", bucket))`-level lookup: the bucket
directory of that name, if it exists. -/
def findBucket (storage : List Bucket) (bucketId : String) : Option Bucket :=
  storage.find? (fun b => b.id = bucketId)

/-- Embeds `rm(shareDir, ...)` with the recursive flag: drop the share directory from its
bucket; other buckets are untouched. -/
def removeShare (storage : List Bucket) (bucketId shareId : String) :
    List Bucket :=
  storage.map (fun b =>
    if b.id = bucketId then
      { b with shares := b.shares.filter (fun s => ¬ s.id = shareId) }
    else b)

/-- Embeds `handleDownload` (lines 114-179) after path parsing (`/d/:bucket/:shareId`,
the `parts.length < 3` guard is the caller's 400 path).  Returns the
response and the storage after the request; the deferred burn deletion
(`setTimeout` of lines 169-173) is modelled as having completed before
the next request runs. -/
def handleDownload (bucketId shareId : String) (storage : List Bucket) :
    DownloadResult × List Bucket :=
  match findBucket storage bucketId with
  | none => (.notFound, storage)
  | some b =>
    match b.shares.find? (fun s => s.id = shareId) with
    | none => (.notFound, storage)
    | some sh =>
      let files := sh.entries.filter (fun f => ¬ f.name = ".burn")
      if files.isEmpty then (.notFound, storage)
      else
        let shouldBurn := sh.entries.any (fun f => f.name = ".burn")
        let response : DownloadResult :=
          match files with
          | [f] =>
            .raw f.name f.content
              (if f.mime = "" then "application/octet-stream" else f.mime)
          | _ =>
            .zip (shareId ++ ".zip") (files.map (fun f => (f.name, f.content)))
        (response,
         if shouldBurn then removeShare storage bucketId shareId else storage)

/-- Embeds `const RATE_LIMIT_WINDOW = 60 * 1000`. -/
def RATE_LIMIT_WINDOW : Int := 60 * 1000

/-- Embeds `const RATE_LIMIT_MAX = 30`. -/
def RATE_LIMIT_MAX : Nat := 30

/-- One value of `rateLimitMap`: `{ count, resetAt }`. -/
structure RLEntry where
  count : Nat
  resetAt : Int
deriving Repr, DecidableEq

/-- Embeds `isRateLimited` (lines 16-27) for a single client: takes `Date.now()`
and the client's current map entry, returns the verdict together with the
entry written back to the map. -/
def isRateLimited (now : Int) (entry : Option RLEntry) : Bool × RLEntry :=
  match entry with
  | none => (false, ⟨1, now + RATE_LIMIT_WINDOW⟩)
  | some e =>
    if now > e.resetAt then (false, ⟨1, now + RATE_LIMIT_WINDOW⟩)
    else (decide (e.count + 1 > RATE_LIMIT_MAX), ⟨e.count + 1, e.resetAt⟩)

/-- A client's consecutive requests at the given timestamps: the list of
verdicts (`true` = rejected with 429), threading the map entry through
`isRateLimited`. -/
def runRequests (entry : Option RLEntry) : List Int → List Bool
  | [] => []
  | t :: ts =>
    let r := isRateLimited t entry
    r.1 :: runRequests (some r.2) ts

/-- Outcome of `handleQuota` (lines 238-256): 429, 401, or the JSON
`{ used, max, available }`. -/
inductive QuotaResult
  | rateLimited
  | unauthorized
  | ok (used : Nat) (max : Nat) (available : Int)
deriving Repr, DecidableEq

/-- Embeds `handleQuota` (lines 238-256).  As with uploads the caller's bucket
directory (`join(data_dir, "uploads", hashPassword(password))`) is passed
explicitly; `entry` is the client IP's rate-limit entry.  Returns the
response and the written-back rate-limit entry. -/
def handleQuota (cfg : Config) (now : Int) (entry : Option RLEntry)
    (password : Option String) (bucketDir : List Share) :
    QuotaResult × RLEntry :=
  let r := isRateLimited now entry
  if r.1 then (.rateLimited, r.2)
  else
    match password with
    | none => (.unauthorized, r.2)
    | some pw =>
      if pw ∈ cfg.passwords then
        let used := getDirSize bucketDir
        let maxBytes := cfg.max_bucket_size_mb * 1024 * 1024
        (.ok used maxBytes ((maxBytes : Int) - (used : Int)), r.2)
      else (.unauthorized, r.2)

/-- The per-bucket share loop of `cleanupExpiredShares` (lines 72-83):
each share whose `stat` succeeds and whose age `now - mtimeMs` exceeds
`ttlMs` is removed; a share whose `stat` (or `rm`) throws is skipped by
the inner `catch` and survives. -/
def sweepBucketShares (now ttlMs : Int) (b : Bucket) : Bucket :=
  { b with
    shares := b.shares.filter (fun s => ¬ (s.statOk ∧ now - s.mtime > ttlMs)) }

/-- Embeds `cleanupExpiredShares` (lines 61-94) over the bucket list in `readdir`
order.  A bucket whose `readdir` throws raises out of the `for` loop into
the single outer `catch`, so that bucket and every bucket after it are
left untouched; a readable bucket has its expired shares removed and, if
nothing remains (lines 85-89), the bucket directory itself removed. -/
def cleanupExpiredShares (now ttlMs : Int) : List Bucket → List Bucket
  | [] => []
  | b :: rest =>
    if b.readable then
      let b' := sweepBucketShares now ttlMs b
      if b'.shares.isEmpty then cleanupExpiredShares now ttlMs rest
      else b' :: cleanupExpiredShares now ttlMs rest
    else b :: rest

/-- The TTL in milliseconds: `config.share_ttl_days * 24 * HOUR_MS`
(line 62). -/
def ttlMsOf (cfg : Config) : Int := (cfg.share_ttl_days * 24 * HOUR_MS : Nat)

/-- Top-level actions the server module runs at load (lines 258-270), in
source order. -/
inductive StartupStep
  | scheduleCleanup (intervalMs : Nat)
  | runCleanup
  | startServer
deriving Repr, DecidableEq

/-- Lines 258-270: `setInterval(cleanupExpiredShares..., HOUR_MS)`, then
an eager `cleanupExpiredShares()` call, then `Bun.serve`. -/
def serverStartup : List StartupStep :=
  [.scheduleCleanup HOUR_MS, .runCleanup, .startServer]

/-!
## Path semantics of `node:path`'s `join`

`handleUpload` computes each file's destination as
`join(shareDir, file.name)` (line 223). Node's `join` concatenates its
arguments with `/` and normalizes the result: empty and `.` segments are
dropped and a `..` segment pops the preceding segment when one is
available. Paths are represented as segment lists. -/

/-- Split a character list on `/`, accumulating the current segment. -/
def splitSegsAux : List Char → List Char → List String
  | [], cur => [⟨cur.reverse⟩]
  | c :: cs, cur =>
    if c = '/' then ⟨cur.reverse⟩ :: splitSegsAux cs []
    else splitSegsAux cs (c :: cur)

/-- Split a path string on `/`, dropping empty segments. -/
def splitPath (s : String) : List String :=
  (splitSegsAux s.data []).filter (fun seg => ¬ seg = "")

/-- One step of Node path normalization over a reversed segment stack. -/
def normStep (acc : List String) (seg : String) : List String :=
  if seg = "." then acc
  else if seg = ".." then
    match acc with
    | [] => [".."]
    | t :: rest => if t = ".." then seg :: t :: rest else rest
  else seg :: acc

/-- Normalize a segment list the way `path.join` does. -/
def normalizeSegs (segs : List String) : List String :=
  (segs.foldl normStep []).reverse

/-- Embeds `join(base, name)` for an already-normalized base directory. -/
def joinSeg (base : List String) (name : String) : List String :=
  normalizeSegs (base ++ splitPath name)

/-- The share directory `join(config.data_dir, "uploads", bucket, shareId)`
(lines 205 and 218), as segments. -/
def shareDirSegs (dataDir : List String) (bucket shareId : String) :
    List String :=
  dataDir ++ ["uploads", bucket, shareId]

/-- The destination path `join(shareDir, file.name)` of line 223 for one
uploaded filename. -/
def uploadWritePath (dataDir : List String) (bucket shareId name : String) :
    List String :=
  joinSeg (shareDirSegs dataDir bucket shareId) name

/-- Holds when `p` lies strictly inside directory `dir`. -/
def insideDir (dir p : List String) : Prop :=
  p.take dir.length = dir ∧ dir.length < p.length

instance (dir p : List String) : Decidable (insideDir dir p) := by
  unfold insideDir; infer_instance

/-!
## Bucket resolution

`hashPassword` (lines 37-40) is
`Bun.hash(password).toString(16).slice(0, 12)`: the 64-bit Wyhash of the
password, rendered as hexadecimal *without leading zeros* (`BigInt`'s
`toString`), truncated to at most 12 characters. The post-hash stage is
embedded below; `Bun.hash` itself is a library function outside this repository whose
concrete values are not part of this repository. -/

/-- Embeds `h.toString(16).slice(0, 12)` for a hash value `h`: lowercase hex
digits, no leading zeros, truncated to the first 12 characters. -/
def bucketIdOfHash (h : Nat) : String :=
  ⟨(Nat.toDigits 16 h).take 12⟩

/-!
## Recursive directory size

`getDirSize` (lines 42-59) walks an arbitrary directory tree. The
general walk is embedded over a tree type; `getDirSize` above is its
instantiation at the two-level bucket layout, an equality proved in
`getDirSizeTree_bucket` below. -/

/-- A filesystem node: a plain file with its `stat.size`, or a directory
with its entries. -/
inductive FsNode
  | file (name : String) (size : Nat)
  | dir (name : String) (entries : List FsNode)

mutual

/-- The recursive walk of `getDirSize` (lines 42-59): a file contributes
`stat.size`, a directory the recursive total of its entries. -/
def getDirSizeTree : FsNode → Nat
  | .file _ sz => sz
  | .dir _ entries => getDirSizeEntries entries

/-- The `for` loop of `getDirSize` over a directory listing. -/
def getDirSizeEntries : List FsNode → Nat
  | [] => 0
  | e :: es => getDirSizeTree e + getDirSizeEntries es

end

/-- A share directory as a filesystem node. -/
def shareNode (s : Share) : FsNode :=
  .dir s.id (s.entries.map (fun f => .file f.name f.size))

/-- A bucket directory as a filesystem node. -/
def bucketNode (bucketId : String) (bucketDir : List Share) : FsNode :=
  .dir bucketId (bucketDir.map shareNode)

/-!
## Size bookkeeping lemmas -/

/-- Total `stat.size` of a share directory listing. -/
def dirSize (d : List FsFile) : Nat :=
  (d.map FsFile.size).sum

theorem shareSize_eq_dirSize (s : Share) : shareSize s = dirSize s.entries :=
  rfl

theorem dirSize_writeFile_le (d : List FsFile) (f : FsFile) :
    dirSize (writeFile d f) ≤ dirSize d + f.size := by
  induction d with
  | nil => simp [writeFile, dirSize]
  | cons g gs ih =>
    by_cases h : g.name = f.name
    · simp only [writeFile, if_pos h, dirSize, List.map_cons, List.sum_cons]
      omega
    · simp only [writeFile, if_neg h, dirSize, List.map_cons, List.sum_cons]
      simp only [dirSize] at ih
      omega

theorem dirSize_foldl_writeFile_le (fs : List FsFile) (d : List FsFile) :
    dirSize (fs.foldl writeFile d) ≤ dirSize d + (fs.map FsFile.size).sum := by
  induction fs generalizing d with
  | nil => simp
  | cons f fs ih =>
    have h1 := ih (writeFile d f)
    have h2 := dirSize_writeFile_le d f
    simp only [List.foldl_cons, List.map_cons, List.sum_cons]
    omega

theorem newShareEntries_size_le (files : List FsFile) (burn : Bool) :
    dirSize (newShareEntries files burn) ≤ (files.map FsFile.size).sum := by
  cases burn with
  | false =>
    have h2 := dirSize_foldl_writeFile_le files []
    show dirSize (files.foldl writeFile []) ≤ (files.map FsFile.size).sum
    simp only [dirSize, List.map_nil, List.sum_nil] at h2 ⊢
    omega
  | true =>
    have h1 := dirSize_writeFile_le (files.foldl writeFile [])
      ⟨".burn", 0, [], ""⟩
    have h2 := dirSize_foldl_writeFile_le files []
    show dirSize (writeFile (files.foldl writeFile []) ⟨".burn", 0, [], ""⟩)
      ≤ (files.map FsFile.size).sum
    simp only [dirSize, List.map_nil, List.sum_nil] at h1 h2 ⊢
    omega

theorem getDirSize_append_share (d : List Share) (s : Share) :
    getDirSize (d ++ [s]) = getDirSize d + shareSize s := by
  simp [getDirSize]

/-!
## C2 — quota invariant of uploads -/

/-- C2: after every successful upload the bucket's byte usage stays within
`max_bucket_size_mb * 1024 * 1024`; an upload that would push usage past
the quota is answered with the 413 quota error and leaves the bucket
directory exactly as it was (no bytes written). -/
theorem upload_preserves_quota (cfg : Config) (pw : String)
    (files : List FsFile) (burn : Bool) (bucketId shareId : String)
    (now : Int) (bucketDir : List Share) :
    (∀ url d', handleUpload cfg (some pw) files burn bucketId shareId now
        bucketDir = (.ok url, d') →
        getDirSize d' ≤ cfg.max_bucket_size_mb * 1024 * 1024) ∧
    (∀ a d', handleUpload cfg (some pw) files burn bucketId shareId now
        bucketDir = (.quotaExceeded a, d') → d' = bucketDir) ∧
    (pw ∈ cfg.passwords → ¬ files = [] →
      getDirSize bucketDir + (files.map FsFile.size).sum
          > cfg.max_bucket_size_mb * 1024 * 1024 →
      handleUpload cfg (some pw) files burn bucketId shareId now bucketDir
        = (.quotaExceeded
            (Int.fdiv
              ((cfg.max_bucket_size_mb * 1024 * 1024 : Nat)
                - (getDirSize bucketDir : Int)) (1024 * 1024)),
           bucketDir)) := by
  by_cases hpw : pw ∈ cfg.passwords
  · by_cases hfe : files.isEmpty
    · refine ⟨?_, ?_, ?_⟩
      · intro url d' h
        simp [handleUpload, hpw, hfe] at h
      · intro a d' h
        simp [handleUpload, hpw, hfe] at h
      · intro _ hne _
        exact absurd (List.isEmpty_iff.mp hfe) hne
    · by_cases hq : getDirSize bucketDir + (files.map FsFile.size).sum
          > cfg.max_bucket_size_mb * 1024 * 1024
      · refine ⟨?_, ?_, ?_⟩
        · intro url d' h
          simp [handleUpload, hpw, hfe, hq] at h
        · intro a d' h
          simp only [handleUpload, if_pos hpw, hfe, Bool.false_eq_true,
            if_false, if_pos hq, Prod.mk.injEq] at h
          exact h.2.symm
        · intro _ _ _
          simp [handleUpload, hpw, hfe, hq]
      · refine ⟨?_, ?_, ?_⟩
        · intro url d' h
          simp only [handleUpload, if_pos hpw, hfe, Bool.false_eq_true,
            if_false, if_neg hq, Prod.mk.injEq] at h
          rw [← h.2]
          rw [getDirSize_append_share, shareSize_eq_dirSize]
          have h1 := newShareEntries_size_le files burn
          show getDirSize bucketDir + dirSize (newShareEntries files burn)
            ≤ cfg.max_bucket_size_mb * 1024 * 1024
          omega
        · intro a d' h
          simp [handleUpload, hpw, hfe, hq] at h
        · intro _ _ hq'
          exact absurd hq' hq
  · refine ⟨?_, ?_, ?_⟩
    · intro url d' h
      simp [handleUpload, hpw] at h
    · intro a d' h
      simp [handleUpload, hpw] at h
    · intro hpw' _ _
      exact absurd hpw' hpw

/-- Witness for C2: a 2MB upload into an empty 1MB bucket is rejected with
the directory unchanged; a 3-byte upload into an empty 10MB bucket
succeeds within quota. -/
theorem upload_preserves_quota_witness :
    handleUpload ⟨["pw"], 1, 7⟩ (some "pw") [⟨"a.bin", 2097152, [], ""⟩]
        false "b" "s" 0 [] = (.quotaExceeded 1, ([] : List Share)) ∧
    getDirSize [⟨"s", 0, true, [⟨"a.txt", 3, [1, 2, 3], ""⟩]⟩]
      ≤ 10 * 1024 * 1024 := by
  constructor
  · exact ((upload_preserves_quota ⟨["pw"], 1, 7⟩ "pw"
      [⟨"a.bin", 2097152, [], ""⟩] false "b" "s" 0 []).2.2
      (by decide) (by decide) (by decide)).trans (by decide)
  · exact (upload_preserves_quota ⟨["pw"], 10, 7⟩ "pw"
      [⟨"a.txt", 3, [1, 2, 3], ""⟩] false "b" "s" 0 []).1 "/d/b/s"
      [⟨"s", 0, true, [⟨"a.txt", 3, [1, 2, 3], ""⟩]⟩] (by decide)

/-!
## C8 — what a quota rejection reports -/

/-- C8 counterexample: quota 10MB, existing usage 9.5MB (9961472 bytes),
1MB upload.  The upload is rejected, but the response carries `0` (whole
megabytes, floored), not the `524288` additional bytes that would fit —
so the rejection response does not carry `max_bytes - used_bytes`. -/
theorem quota_reject_reports_mb_not_bytes :
    handleUpload ⟨["pw"], 10, 7⟩ (some "pw") [⟨"b.bin", 1048576, [], ""⟩]
        false "b" "s" 0 [⟨"s0", 0, true, [⟨"a.bin", 9961472, [], ""⟩]⟩]
      = (.quotaExceeded 0,
         [⟨"s0", 0, true, [⟨"a.bin", 9961472, [], ""⟩]⟩]) ∧
    (10 * 1024 * 1024 : Int) - 9961472 = 524288 ∧ (0 : Int) ≠ 524288 := by
  decide

/-- C8 (amended): an upload rejected for quota leaves the bucket
directory byte-for-byte unchanged (zero bytes written), and the response
carries the available space in whole megabytes,
`Math.floor((max_bytes - used_bytes) / 2^20)`. -/
theorem quota_reject_zero_bytes_floor_mb (cfg : Config) (pw : String)
    (files : List FsFile) (burn : Bool) (bucketId shareId : String)
    (now : Int) (bucketDir : List Share)
    (hpw : pw ∈ cfg.passwords) (hne : ¬ files = [])
    (hover : getDirSize bucketDir + (files.map FsFile.size).sum
        > cfg.max_bucket_size_mb * 1024 * 1024) :
    handleUpload cfg (some pw) files burn bucketId shareId now bucketDir
      = (.quotaExceeded
          (Int.fdiv
            ((cfg.max_bucket_size_mb * 1024 * 1024 : Nat)
              - (getDirSize bucketDir : Int)) (1024 * 1024)),
         bucketDir) := by
  have hfe : ¬ files.isEmpty := by
    cases files with
    | nil => exact absurd rfl hne
    | cons f fs => simp
  simp [handleUpload, hpw, hfe, hover]

/-- Witness for C8 (the spec's own example): quota 10MB, existing usage
9MB, 2MB upload — rejected with `1` (MB) and the directory unchanged. -/
theorem quota_reject_zero_bytes_floor_mb_witness :
    handleUpload ⟨["pw"], 10, 7⟩ (some "pw") [⟨"b.bin", 2097152, [], ""⟩]
        false "b" "s" 0 [⟨"s0", 0, true, [⟨"a.bin", 9437184, [], ""⟩]⟩]
      = (.quotaExceeded 1,
         [⟨"s0", 0, true, [⟨"a.bin", 9437184, [], ""⟩]⟩]) :=
  (quota_reject_zero_bytes_floor_mb ⟨["pw"], 10, 7⟩ "pw"
    [⟨"b.bin", 2097152, [], ""⟩] false "b" "s" 0
    [⟨"s0", 0, true, [⟨"a.bin", 9437184, [], ""⟩]⟩]
    (by decide) (by decide) (by decide)).trans (by decide)

/-!
## C1 — uploader-supplied filenames and path traversal

`handleUpload` never inspects `file.name`: lines 221-226 write every
part directly to `join(shareDir, file.name)`, and no branch of the
handler produces a 400 for a filename.  Node's `join` resolves `..`
segments, so a crafted filename escapes the share directory. -/

/-- C1 (refuted; code bug): with `data_dir = "data"`, bucket `"b"`,
share `"s"`, an upload of a file named `"../../../evil.txt"` is accepted
(200 with the share URL, no `BadRequest`), and the path the handler
writes — `join(shareDir, file.name)` — resolves to `data/evil.txt`,
outside the share directory `data/uploads/b/s` (indeed outside
`data/uploads` entirely). -/
theorem upload_path_traversal_escapes :
    uploadWritePath ["data"] "b" "s" "../../../evil.txt"
        = ["data", "evil.txt"] ∧
    ¬ insideDir (shareDirSegs ["data"] "b" "s")
        (uploadWritePath ["data"] "b" "s" "../../../evil.txt") ∧
    (handleUpload ⟨["pw"], 10, 7⟩ (some "pw")
        [⟨"../../../evil.txt", 4, [101, 118, 105, 108], "text/plain"⟩]
        false "b" "s" 0 []).1
      = .ok "/d/b/s" := by
  decide

/-!
## C3 / C4 — download semantics -/

theorem findBucket_removeShare (storage : List Bucket)
    (bucketId shareId : String) :
    findBucket (removeShare storage bucketId shareId) bucketId
      = (findBucket storage bucketId).map
          (fun b =>
            { b with
              shares := b.shares.filter (fun s => ¬ s.id = shareId) }) := by
  induction storage with
  | nil => rfl
  | cons b bs ih =>
    by_cases h : b.id = bucketId
    · simp [findBucket, removeShare, h]
    · simp only [findBucket, removeShare, List.map_cons] at ih ⊢
      rw [if_neg h]
      rw [List.find?_cons_of_neg _ (by simp [h]),
        List.find?_cons_of_neg _ (by simp [h])]
      exact ih

theorem find?_filter_ne_id_none (shares : List Share) (shareId : String) :
    (shares.filter (fun s => ¬ s.id = shareId)).find?
        (fun s => s.id = shareId) = none := by
  induction shares with
  | nil => rfl
  | cons s ss ih =>
    by_cases h : s.id = shareId
    · simp only [List.filter_cons]
      rw [if_neg (by simp [h])]
      exact ih
    · simp only [List.filter_cons]
      rw [if_pos (by simp [h])]
      rw [List.find?_cons_of_neg _ (by simp [h])]
      exact ih

theorem any_writeFile_name (d : List FsFile) (f : FsFile) :
    (writeFile d f).any (fun g => g.name = f.name) = true := by
  induction d with
  | nil => simp [writeFile]
  | cons g gs ih =>
    by_cases h : g.name = f.name
    · simp [writeFile, h]
    · simp [writeFile, h, ih]

/-- C3: an upload with `burn = true` plants the zero-byte `.burn` marker
in the new share's directory, and a share carrying that marker is
retrievable exactly once: the first download of `<bucket>/<share>`
succeeds (it is neither a 404 nor a 400), and — the deferred `rm` having
completed — any further download of the same pair answers 404 and leaves
storage unchanged. -/
theorem burn_share_retrievable_once (files : List FsFile)
    (storage : List Bucket)
    (bucketId shareId : String) (b : Bucket) (sh : Share)
    (hb : findBucket storage bucketId = some b)
    (hs : b.shares.find? (fun s => s.id = shareId) = some sh)
    (hburn : sh.entries.any (fun f => f.name = ".burn") = true)
    (hne : (sh.entries.filter (fun f => ¬ f.name = ".burn")).isEmpty
        = false) :
    (newShareEntries files true).any (fun f => f.name = ".burn") = true ∧
    ((handleDownload bucketId shareId storage).1 ≠ .notFound ∧
     (handleDownload bucketId shareId storage).1 ≠ .invalidPath) ∧
    handleDownload bucketId shareId
        ((handleDownload bucketId shareId storage).2)
      = (.notFound, (handleDownload bucketId shareId storage).2) := by
  have hsnd : (handleDownload bucketId shareId storage).2
      = removeShare storage bucketId shareId := by
    simp only [handleDownload, hb, hs]
    rw [hne, hburn]
    rfl
  refine ⟨?_, ?_, ?_⟩
  · show (writeFile (files.foldl writeFile []) ⟨".burn", 0, [], ""⟩).any
        (fun f => f.name = ".burn") = true
    exact any_writeFile_name (files.foldl writeFile []) ⟨".burn", 0, [], ""⟩
  · constructor
    · rcases hfe : sh.entries.filter (fun f => ¬ f.name = ".burn") with
        _ | ⟨f, _ | ⟨g, rest⟩⟩
      · rw [hfe] at hne; simp at hne
      · have hv : (handleDownload bucketId shareId storage).1
            = DownloadResult.raw f.name f.content
                (if f.mime = "" then "application/octet-stream"
                 else f.mime) := by
          simp only [handleDownload, hb, hs]
          rw [hfe]
          rfl
        rw [hv]
        intro hcon
        exact DownloadResult.noConfusion hcon
      · have hv : (handleDownload bucketId shareId storage).1
            = DownloadResult.zip (shareId ++ ".zip")
                ((f :: g :: rest).map (fun x => (x.name, x.content))) := by
          simp only [handleDownload, hb, hs]
          rw [hfe]
          rfl
        rw [hv]
        intro hcon
        exact DownloadResult.noConfusion hcon
    · rcases hfe : sh.entries.filter (fun f => ¬ f.name = ".burn") with
        _ | ⟨f, _ | ⟨g, rest⟩⟩
      · rw [hfe] at hne; simp at hne
      · have hv : (handleDownload bucketId shareId storage).1
            = DownloadResult.raw f.name f.content
                (if f.mime = "" then "application/octet-stream"
                 else f.mime) := by
          simp only [handleDownload, hb, hs]
          rw [hfe]
          rfl
        rw [hv]
        intro hcon
        exact DownloadResult.noConfusion hcon
      · have hv : (handleDownload bucketId shareId storage).1
            = DownloadResult.zip (shareId ++ ".zip")
                ((f :: g :: rest).map (fun x => (x.name, x.content))) := by
          simp only [handleDownload, hb, hs]
          rw [hfe]
          rfl
        rw [hv]
        intro hcon
        exact DownloadResult.noConfusion hcon
  · rw [hsnd]
    have hb2 : findBucket (removeShare storage bucketId shareId) bucketId
        = some { b with
            shares := b.shares.filter (fun s => ¬ s.id = shareId) } := by
      rw [findBucket_removeShare, hb]
      rfl
    have hs2 : (b.shares.filter (fun s => ¬ s.id = shareId)).find?
        (fun s => s.id = shareId) = none :=
      find?_filter_ne_id_none b.shares shareId
    simp only [handleDownload, hb2, hs2]

/-- Witness for C3: a burn share holding one 3-byte file is served raw
on the first request; the second request on the resulting storage is a
404 that changes nothing. -/
theorem burn_share_retrievable_once_witness :
    (newShareEntries [⟨"a.txt", 3, [1, 2, 3], "text/plain"⟩] true).any
        (fun f => f.name = ".burn") = true ∧
    ((handleDownload "b" "s"
        [⟨"b", true, [⟨"s", 0, true,
          [⟨".burn", 0, [], ""⟩,
           ⟨"a.txt", 3, [1, 2, 3], "text/plain"⟩]⟩]⟩]).1 ≠ .notFound ∧
     (handleDownload "b" "s"
        [⟨"b", true, [⟨"s", 0, true,
          [⟨".burn", 0, [], ""⟩,
           ⟨"a.txt", 3, [1, 2, 3], "text/plain"⟩]⟩]⟩]).1 ≠ .invalidPath) ∧
    handleDownload "b" "s"
        ((handleDownload "b" "s"
          [⟨"b", true, [⟨"s", 0, true,
            [⟨".burn", 0, [], ""⟩,
             ⟨"a.txt", 3, [1, 2, 3], "text/plain"⟩]⟩]⟩]).2)
      = (.notFound,
         (handleDownload "b" "s"
          [⟨"b", true, [⟨"s", 0, true,
            [⟨".burn", 0, [], ""⟩,
             ⟨"a.txt", 3, [1, 2, 3], "text/plain"⟩]⟩]⟩]).2) :=
  burn_share_retrievable_once
    [⟨"a.txt", 3, [1, 2, 3], "text/plain"⟩]
    [⟨"b", true, [⟨"s", 0, true,
      [⟨".burn", 0, [], ""⟩, ⟨"a.txt", 3, [1, 2, 3], "text/plain"⟩]⟩]⟩]
    "b" "s"
    ⟨"b", true, [⟨"s", 0, true,
      [⟨".burn", 0, [], ""⟩, ⟨"a.txt", 3, [1, 2, 3], "text/plain"⟩]⟩]⟩
    ⟨"s", 0, true,
      [⟨".burn", 0, [], ""⟩, ⟨"a.txt", 3, [1, 2, 3], "text/plain"⟩]⟩
    (by decide) (by decide) (by decide) (by decide)

/-- C4: a located share whose listing (the `.burn` marker aside) holds
exactly one file is served raw — that file's bytes under its content
type, `application/octet-stream` when the type is empty — while a
listing of two or more files is served as the zip archive
`<shareId>.zip` whose entries are exactly those files, in directory
order, with their names and contents. -/
theorem download_single_raw_multi_zip (storage : List Bucket)
    (bucketId shareId : String) (b : Bucket) (sh : Share)
    (hb : findBucket storage bucketId = some b)
    (hs : b.shares.find? (fun s => s.id = shareId) = some sh) :
    (∀ f, sh.entries.filter (fun g => ¬ g.name = ".burn") = [f] →
      (handleDownload bucketId shareId storage).1
        = .raw f.name f.content
            (if f.mime = "" then "application/octet-stream" else f.mime)) ∧
    (∀ f g rest,
      sh.entries.filter (fun x => ¬ x.name = ".burn") = f :: g :: rest →
      (handleDownload bucketId shareId storage).1
        = .zip (shareId ++ ".zip")
            ((f :: g :: rest).map (fun x => (x.name, x.content)))) := by
  constructor
  · intro f hfe
    simp only [handleDownload, hb, hs]
    rw [hfe]
    rfl
  · intro f g rest hfe
    simp only [handleDownload, hb, hs]
    rw [hfe]
    rfl

/-- Witness for C4: a two-file share downloads as the zip holding both
named files; a one-file share downloads as that raw file with its
content type. -/
theorem download_single_raw_multi_zip_witness :
    (handleDownload "b" "s2"
        [⟨"b", true,
          [⟨"s2", 0, true, [⟨"x.txt", 1, [120], "text/plain"⟩,
                            ⟨"y.bin", 2, [1, 2], ""⟩]⟩,
           ⟨"s1", 0, true, [⟨"a.txt", 3, [1, 2, 3], "text/plain"⟩]⟩]⟩]).1
      = .zip "s2.zip" [("x.txt", [120]), ("y.bin", [1, 2])] ∧
    (handleDownload "b" "s1"
        [⟨"b", true,
          [⟨"s2", 0, true, [⟨"x.txt", 1, [120], "text/plain"⟩,
                            ⟨"y.bin", 2, [1, 2], ""⟩]⟩,
           ⟨"s1", 0, true, [⟨"a.txt", 3, [1, 2, 3], "text/plain"⟩]⟩]⟩]).1
      = .raw "a.txt" [1, 2, 3] "text/plain" := by
  constructor
  · exact ((download_single_raw_multi_zip
      [⟨"b", true,
        [⟨"s2", 0, true, [⟨"x.txt", 1, [120], "text/plain"⟩,
                          ⟨"y.bin", 2, [1, 2], ""⟩]⟩,
         ⟨"s1", 0, true, [⟨"a.txt", 3, [1, 2, 3], "text/plain"⟩]⟩]⟩]
      "b" "s2"
      ⟨"b", true,
        [⟨"s2", 0, true, [⟨"x.txt", 1, [120], "text/plain"⟩,
                          ⟨"y.bin", 2, [1, 2], ""⟩]⟩,
         ⟨"s1", 0, true, [⟨"a.txt", 3, [1, 2, 3], "text/plain"⟩]⟩]⟩
      ⟨"s2", 0, true, [⟨"x.txt", 1, [120], "text/plain"⟩,
                       ⟨"y.bin", 2, [1, 2], ""⟩]⟩
      (by decide) (by decide)).2
      ⟨"x.txt", 1, [120], "text/plain"⟩ ⟨"y.bin", 2, [1, 2], ""⟩ []
      (by decide)).trans (by decide)
  · exact ((download_single_raw_multi_zip
      [⟨"b", true,
        [⟨"s2", 0, true, [⟨"x.txt", 1, [120], "text/plain"⟩,
                          ⟨"y.bin", 2, [1, 2], ""⟩]⟩,
         ⟨"s1", 0, true, [⟨"a.txt", 3, [1, 2, 3], "text/plain"⟩]⟩]⟩]
      "b" "s1"
      ⟨"b", true,
        [⟨"s2", 0, true, [⟨"x.txt", 1, [120], "text/plain"⟩,
                          ⟨"y.bin", 2, [1, 2], ""⟩]⟩,
         ⟨"s1", 0, true, [⟨"a.txt", 3, [1, 2, 3], "text/plain"⟩]⟩]⟩
      ⟨"s1", 0, true, [⟨"a.txt", 3, [1, 2, 3], "text/plain"⟩]⟩
      (by decide) (by decide)).1
      ⟨"a.txt", 3, [1, 2, 3], "text/plain"⟩ (by decide)).trans (by decide)

/-!
## C5 / C7 — the expiry sweep -/

/-- The sweep as the spec words it, for comparison with the embedded
`cleanupExpiredShares`: for every bucket, every share whose age
`now - mtime` exceeds the TTL is deleted, then buckets left with no
shares are removed. -/
def sweepSpec (now ttlMs : Int) (storage : List Bucket) : List Bucket :=
  (storage.map (fun b =>
      { b with
        shares := b.shares.filter (fun s => ¬ now - s.mtime > ttlMs) })).filter
    (fun b => ¬ b.shares.isEmpty)

/-- C5: on a fully accessible storage tree (every bucket readable, every
share statable — the regime the claim describes), one run of the sweep
deletes a share exactly when its age exceeds the TTL and removes exactly
the buckets left with no shares: it computes `sweepSpec`. -/
theorem cleanup_matches_spec (now ttlMs : Int) (storage : List Bucket)
    (hacc : ∀ b ∈ storage,
      b.readable = true ∧ ∀ s ∈ b.shares, s.statOk = true) :
    cleanupExpiredShares now ttlMs storage = sweepSpec now ttlMs storage := by
  induction storage with
  | nil => rfl
  | cons b bs ih =>
    have hb := hacc b (List.mem_cons_self b bs)
    have hbs : ∀ x ∈ bs, x.readable = true ∧ ∀ s ∈ x.shares, s.statOk = true :=
      fun x hx => hacc x (List.mem_cons_of_mem _ hx)
    have hsweep : sweepBucketShares now ttlMs b
        = { b with
            shares := b.shares.filter (fun s => ¬ now - s.mtime > ttlMs) } := by
      unfold sweepBucketShares
      congr 1
      apply List.filter_congr
      intro s hsmem
      simp [hb.2 s hsmem]
    simp only [cleanupExpiredShares, sweepSpec, List.map_cons,
      List.filter_cons, hsweep, ih hbs, hb.1, eq_self_iff_true, if_true]
    by_cases he :
        (b.shares.filter (fun s => ¬ now - s.mtime > ttlMs)).isEmpty = true
    · rw [if_pos he, if_neg (by rw [he]; decide)]
    · have hX : (b.shares.filter
          (fun s => ¬ now - s.mtime > ttlMs)).isEmpty = false := by
        revert he
        cases (b.shares.filter (fun s => ¬ now - s.mtime > ttlMs)).isEmpty <;>
          simp
      rw [if_neg he, if_pos (by rw [hX]; decide)]

/-- Witness for C5: two buckets, one holding an expired (age 200 > TTL
10) and a fresh share, the other only an expired share; the sweep keeps
exactly the fresh share and drops the emptied bucket. -/
theorem cleanup_matches_spec_witness :
    cleanupExpiredShares 200 10
        [⟨"b1", true, [⟨"old", 0, true, [⟨"f", 5, [1], ""⟩]⟩,
                       ⟨"new", 195, true, [⟨"g", 7, [2], ""⟩]⟩]⟩,
         ⟨"b2", true, [⟨"old2", 100, true, [⟨"h", 9, [3], ""⟩]⟩]⟩]
      = sweepSpec 200 10
        [⟨"b1", true, [⟨"old", 0, true, [⟨"f", 5, [1], ""⟩]⟩,
                       ⟨"new", 195, true, [⟨"g", 7, [2], ""⟩]⟩]⟩,
         ⟨"b2", true, [⟨"old2", 100, true, [⟨"h", 9, [3], ""⟩]⟩]⟩] ∧
    cleanupExpiredShares 200 10
        [⟨"b1", true, [⟨"old", 0, true, [⟨"f", 5, [1], ""⟩]⟩,
                       ⟨"new", 195, true, [⟨"g", 7, [2], ""⟩]⟩]⟩,
         ⟨"b2", true, [⟨"old2", 100, true, [⟨"h", 9, [3], ""⟩]⟩]⟩]
      = [⟨"b1", true, [⟨"new", 195, true, [⟨"g", 7, [2], ""⟩]⟩]⟩] :=
  ⟨cleanup_matches_spec 200 10
    [⟨"b1", true, [⟨"old", 0, true, [⟨"f", 5, [1], ""⟩]⟩,
                   ⟨"new", 195, true, [⟨"g", 7, [2], ""⟩]⟩]⟩,
     ⟨"b2", true, [⟨"old2", 100, true, [⟨"h", 9, [3], ""⟩]⟩]⟩]
    (by decide), by decide⟩

/-- C7 (refuted in part; code bug): the eager startup sweep and the
hourly schedule are real (`serverStartup`), but the sweep does not skip
an unreadable *bucket*: the `readdir(bucketPath)` failure propagates to
the single outer catch, aborting the whole sweep.  Concretely, with
TTL 10 and `now = 200`, bucket `"b"`'s share aged 200 is expired and a
sweep of `"b"` alone removes it, yet when the unreadable bucket `"a"`
precedes it the sweep returns the tree unchanged — the expired share
survives instead of being processed.  (An unstatable *share*, by
contrast, is skipped by the inner catch and the sweep continues.) -/
theorem sweep_aborts_on_unreadable_bucket :
    cleanupExpiredShares 200 10
        [⟨"a", false, [⟨"sa", 0, true, [⟨"fa", 1, [7], ""⟩]⟩]⟩,
         ⟨"b", true, [⟨"sb", 0, true, [⟨"fb", 1, [7], ""⟩]⟩]⟩]
      = [⟨"a", false, [⟨"sa", 0, true, [⟨"fa", 1, [7], ""⟩]⟩]⟩,
         ⟨"b", true, [⟨"sb", 0, true, [⟨"fb", 1, [7], ""⟩]⟩]⟩] ∧
    (200 : Int) - 0 > 10 ∧
    cleanupExpiredShares 200 10
        [⟨"b", true, [⟨"sb", 0, true, [⟨"fb", 1, [7], ""⟩]⟩]⟩] = [] ∧
    cleanupExpiredShares 200 10
        [⟨"c", true, [⟨"sc", 0, false, [⟨"fc", 1, [7], ""⟩]⟩,
                      ⟨"sd", 0, true, [⟨"fd", 1, [7], ""⟩]⟩]⟩]
      = [⟨"c", true, [⟨"sc", 0, false, [⟨"fc", 1, [7], ""⟩]⟩]⟩] ∧
    serverStartup
      = [.scheduleCleanup 3600000, .runCleanup, .startServer] := by
  decide

/-!
## C6 — the fixed-window rate limiter -/

theorem runRequests_within_window (ts : List Int) : ∀ (k : Nat) (r : Int),
    (∀ t ∈ ts, t ≤ r) →
    runRequests (some ⟨k, r⟩) ts
      = (List.range ts.length).map
          (fun i => decide (k + i + 1 > RATE_LIMIT_MAX)) := by
  induction ts with
  | nil => intro k r _; rfl
  | cons t ts ih =>
    intro k r h
    have hnot : ¬ t > r := not_lt.mpr (h t (List.mem_cons_self t ts))
    simp only [runRequests, isRateLimited]
    rw [if_neg hnot]
    rw [ih (k + 1) r (fun x hx => h x (List.mem_cons_of_mem _ hx))]
    rw [List.length_cons, List.range_succ_eq_map, List.map_cons,
      List.map_map]
    congr 1
    apply List.map_congr_left
    intro i _
    have he : k + 1 + i + 1 = k + (i + 1) + 1 := by omega
    simp [Function.comp, he]

/-- C6: with window `W = RATE_LIMIT_WINDOW = 60s` and limit
`N = RATE_LIMIT_MAX = 30`: a client with no entry is allowed and gets a
fresh counter; a request strictly after `resetAt` resets the counter and
is allowed; and over any run of requests starting at `t0` whose
followers all fall within `t0 + W`, request `i + 1` is rejected exactly
when `i + 1 > N` — the first 30 are allowed, the 31st and every later
request of the window are rejected. -/
theorem rate_limiter_fixed_window (now : Int) (e : RLEntry) (t0 : Int)
    (ts : List Int) (hin : ∀ t ∈ ts, t ≤ t0 + RATE_LIMIT_WINDOW) :
    (isRateLimited now none) = (false, ⟨1, now + RATE_LIMIT_WINDOW⟩) ∧
    (now > e.resetAt →
      isRateLimited now (some e) = (false, ⟨1, now + RATE_LIMIT_WINDOW⟩)) ∧
    runRequests none (t0 :: ts)
      = (List.range (ts.length + 1)).map
          (fun i => decide (i + 1 > RATE_LIMIT_MAX)) := by
  refine ⟨rfl, ?_, ?_⟩
  · intro hgt
    simp [isRateLimited, hgt]
  · simp only [runRequests, isRateLimited]
    rw [runRequests_within_window ts 1 (t0 + RATE_LIMIT_WINDOW) hin]
    rw [List.range_succ_eq_map, List.map_cons, List.map_map]
    congr 1
    apply List.map_congr_left
    intro i _
    have he : 1 + i + 1 = i + 1 + 1 := by omega
    simp [Function.comp, he]

/-- Witness for C6: 31 requests in one window — the first 30 allowed,
the 31st rejected. -/
theorem rate_limiter_fixed_window_witness :
    runRequests none ((0 : Int) :: List.replicate 30 (0 : Int))
      = (List.range ((List.replicate 30 (0 : Int)).length + 1)).map
          (fun i => decide (i + 1 > RATE_LIMIT_MAX)) ∧
    runRequests none ((0 : Int) :: List.replicate 30 (0 : Int))
      = List.replicate 30 false ++ [true] :=
  ⟨(rate_limiter_fixed_window 0 ⟨1, 0⟩ 0 (List.replicate 30 (0 : Int))
      (by decide)).2.2,
   by decide⟩

/-!
## C10 — the quota query -/

theorem getDirSizeEntries_files (entries : List FsFile) :
    getDirSizeEntries (entries.map (fun f => FsNode.file f.name f.size))
      = dirSize entries := by
  induction entries with
  | nil => rfl
  | cons f fs ih =>
    simp only [List.map_cons, getDirSizeEntries, getDirSizeTree, ih,
      dirSize, List.sum_cons]

theorem getDirSizeEntries_shares (d : List Share) :
    getDirSizeEntries (d.map shareNode) = getDirSize d := by
  induction d with
  | nil => rfl
  | cons s ss ih =>
    simp only [List.map_cons, getDirSizeEntries, shareNode, getDirSizeTree,
      getDirSizeEntries_files, ih]
    simp [getDirSize, dirSize, shareSize]

theorem getDirSizeTree_bucketNode (bucketId : String) (d : List Share) :
    getDirSizeTree (bucketNode bucketId d) = getDirSize d :=
  getDirSizeEntries_shares d

/-- C10: for an allow-listed password and a request that is not rate
limited, the quota query answers `{ used, max, available }` where `used`
is exactly the recursive byte total of the bucket's directory tree
(every file entry counted, zero-byte `.burn` markers included),
`used + available = max` holds exactly, and `available` is negative
precisely when usage exceeds the configured maximum. -/
theorem quota_query_exact (cfg : Config) (now : Int) (entry : Option RLEntry)
    (pw : String) (bucketId : String) (bucketDir : List Share)
    (hpw : pw ∈ cfg.passwords)
    (hrl : (isRateLimited now entry).1 = false) :
    handleQuota cfg now entry (some pw) bucketDir
      = (.ok (getDirSize bucketDir) (cfg.max_bucket_size_mb * 1024 * 1024)
          (((cfg.max_bucket_size_mb * 1024 * 1024 : Nat) : Int)
            - (getDirSize bucketDir : Int)),
         (isRateLimited now entry).2) ∧
    getDirSize bucketDir = getDirSizeTree (bucketNode bucketId bucketDir) ∧
    ((getDirSize bucketDir : Int)
        + (((cfg.max_bucket_size_mb * 1024 * 1024 : Nat) : Int)
            - (getDirSize bucketDir : Int))
      = ((cfg.max_bucket_size_mb * 1024 * 1024 : Nat) : Int)) ∧
    ((((cfg.max_bucket_size_mb * 1024 * 1024 : Nat) : Int)
        - (getDirSize bucketDir : Int) < 0)
      ↔ getDirSize bucketDir > cfg.max_bucket_size_mb * 1024 * 1024) := by
  refine ⟨?_, (getDirSizeTree_bucketNode bucketId bucketDir).symm,
    by omega, by omega⟩
  simp [handleQuota, hrl, hpw]

/-- Witness for C10: a bucket holding one share with a 5-byte file and a
zero-byte `.burn` marker, under a configured maximum of 0 MB: `used = 5`,
`max = 0` and `available = -5 < 0`. -/
theorem quota_query_exact_witness :
    handleQuota ⟨["pw"], 0, 7⟩ 0 none (some "pw")
        [⟨"s", 0, true, [⟨"f.bin", 5, [1, 2, 3, 4, 5], ""⟩,
                         ⟨".burn", 0, [], ""⟩]⟩]
      = (.ok 5 0 (-5), ⟨1, 60000⟩) ∧
    getDirSizeTree (bucketNode "b"
        [⟨"s", 0, true, [⟨"f.bin", 5, [1, 2, 3, 4, 5], ""⟩,
                         ⟨".burn", 0, [], ""⟩]⟩]) = 5 := by
  constructor
  · exact ((quota_query_exact ⟨["pw"], 0, 7⟩ 0 none "pw" "b"
      [⟨"s", 0, true, [⟨"f.bin", 5, [1, 2, 3, 4, 5], ""⟩,
                       ⟨".burn", 0, [], ""⟩]⟩]
      (by decide) (by decide)).1).trans (by decide)
  · decide

/-!
## C9 — the bucket resolver's output

`bucketIdOfHash` renders the hash without leading zeros, so its length
is `min 12 (hex-digit count)`: at most 12 but not the same for every
hash value.  Whether every *password*'s `Bun.hash` value (external
Wyhash) stays at or above `16^11` — which is what a truly fixed output
length would require — is outside this embedding. -/

theorem bucketIdOfHash_truncates :
    (∀ h : Nat, (bucketIdOfHash h).length ≤ 12) ∧
    (bucketIdOfHash 5).length = 1 ∧
    (bucketIdOfHash (2 ^ 63)).length = 12 := by
  refine ⟨?_, by decide, by decide⟩
  intro h
  show ((Nat.toDigits 16 h).take 12).length ≤ 12
  rw [List.length_take]
  omega

end Gravplass
